import Mathlib

/-!
Verification development for the London Liveability Pulse collector core:
normalization, penalty scoring, lineage fallback routing, URL redaction and
history retention.  JavaScript numbers are modelled as exact rationals (ℚ);
`Math.round` (round half toward +∞) is Mathlib's `round` on ℚ.
-/

namespace Liveability

/-- Model of `Math.round(value * 100) / 100` (the collector's `round` helper
in `collect.ts` and the inline two-decimal roundings in `scoring.ts`). -/
def round2 (x : ℚ) : ℚ := (round (x * 100) : ℚ) / 100

/-- Model of `Math.round(value * 10) / 10` (one-decimal rounding of minutes
in `normalize.ts`). -/
def round1 (x : ℚ) : ℚ := (round (x * 10) : ℚ) / 10

/-- One row of a generic penalty band table.  In the source the limit field is
named `maxMinutes` / `maxProb` / `maxSpeed` depending on the table; the band
lookup reads it through the generic `limitKey` parameter, so a single `limit`
field embeds all three. -/
structure BandRow where
  limit : ℚ
  penalty : ℚ
deriving DecidableEq, Repr

/-- `lookupBandPenalty` from `normalize.ts`: the first row whose limit is
`≥ value` wins (`value <= limit` in the source); otherwise the last row's
penalty (`bands.at(-1)?.penalty`); otherwise `0`. -/
def lookupBandPenalty (value : ℚ) (bands : List BandRow) : ℚ :=
  match bands.find? (fun item => value ≤ item.limit) with
  | some row => row.penalty
  | none =>
    match bands.getLast? with
    | some row => row.penalty
    | none => 0

/-- Modelled from the spec (§4.1 contract, for the refinement comparison in
claim C2): return the penalty of the first row whose threshold is ≥ the
value; if no row matches, return the last row's penalty; if the list is
empty, return 0. -/
def lookupBandPenaltySpec (value : ℚ) : List BandRow → ℚ
  | [] => 0
  | row :: rest =>
    if value ≤ row.limit then row.penalty
    else
      match rest with
      | [] => row.penalty
      | _ :: _ => lookupBandPenaltySpec value rest

/-- `average` from `normalize.ts`: sum divided by length, `0` on empty. -/
def average (values : List ℚ) : ℚ :=
  if values.length = 0 then 0 else values.sum / values.length

/-- `averagePenalty` from `normalize.ts`: fallback on the empty list, else the
mean rounded to two decimals. -/
def averagePenalty (values : List ℚ) (fallback : ℚ) : ℚ :=
  if values.length = 0 then fallback else round2 (average values)

/-- `median` from `normalize.ts`: `null` on empty, middle element for odd
length, mean of the two middle elements for even length (the out-of-bounds
guards `?? null` are kept as `Option` plumbing). -/
def median (values : List ℚ) : Option ℚ :=
  if values.length = 0 then none
  else
    let sorted := values.insertionSort (· ≤ ·)
    let mid := sorted.length / 2
    if sorted.length % 2 = 1 then sorted.get? mid
    else
      match sorted.get? (mid - 1), sorted.get? mid with
      | some left, some right => some ((left + right) / 2)
      | _, _ => none

/-- `scoring.weights` from the config. -/
structure ScoringWeights where
  transit : ℚ
  wait : ℚ
  weather : ℚ
  air : ℚ
deriving DecidableEq, Repr

/-- `scoring.fallbacks` from the config. -/
structure ScoringFallbacks where
  transitPenalty : ℚ
  waitPenalty : ℚ
  weatherPenalty : ℚ
  airPenalty : ℚ
deriving DecidableEq, Repr

/-- `scoring.transitSeverityPoints` from the config. -/
structure TransitSeverityPoints where
  goodService : ℚ
  minorDelays : ℚ
  severeDelays : ℚ
  partSuspended : ℚ
  suspended : ℚ
  unknown : ℚ
deriving DecidableEq, Repr

/-- `scoring.weatherPenalty.tempComfort` from the config. -/
structure TempComfort where
  idealMin : ℚ
  idealMax : ℚ
  shoulderMin : ℚ
  shoulderMax : ℚ
  shoulderPenalty : ℚ
  extremePenalty : ℚ
deriving DecidableEq, Repr

/-- `scoring.weatherPenalty` from the config. -/
structure WeatherPenaltyConfig where
  rainBands : List BandRow
  tempComfort : TempComfort
  windBands : List BandRow
deriving DecidableEq, Repr

/-- One row of `scoring.airPenalty` from the config. -/
structure AirBandRow where
  maxIndex : ℚ
  penalty : ℚ
  band : String
deriving DecidableEq, Repr

/-- `scoring` from the config. -/
structure ScoringConfig where
  weights : ScoringWeights
  fallbacks : ScoringFallbacks
  transitSeverityPoints : TransitSeverityPoints
  waitPenaltyBands : List BandRow
  weatherPenalty : WeatherPenaltyConfig
  airPenalty : List AirBandRow
deriving DecidableEq, Repr

/-- Per-source enablement flags (`sources.*.enabled` from the config; the
base URLs, key env names and watch lists live in the fetch adapters, which
are outside the scored core). -/
structure SourcesConfig where
  tflEnabled : Bool
  openMeteoEnabled : Bool
  ergEnabled : Bool
deriving DecidableEq, Repr

/-- The validated configuration slice consumed by the scoring / history core.
`historyRetentionDays` is validated to `1..30` by `config.ts`, hence ℕ. -/
structure LiveabilityConfig where
  sources : SourcesConfig
  scoring : ScoringConfig
  historyRetentionDays : ℕ
deriving DecidableEq, Repr

/-- `NormalizedLineStatus` from `types.ts`. -/
structure NormalizedLineStatus where
  id : String
  name : String
  mode : String
  status : String
  severityPoints : ℚ
deriving DecidableEq, Repr

/-- `NormalizedStopArrivals` from `types.ts`. -/
structure NormalizedStopArrivals where
  stopPointId : String
  label : String
  nextArrivalsMinutes : List ℚ
  medianMinutes : Option ℚ
  penalty : ℚ
deriving DecidableEq, Repr

/-- `WeatherSlice` from `types.ts` (hourly arrays, already coerced to finite
numbers by `normalizeOpenMeteoHourly`). -/
structure WeatherSlice where
  time : List String
  temperature_2m : List ℚ
  precipitation_probability : List ℚ
  wind_speed_10m : List ℚ
deriving DecidableEq, Repr

/-- `WeatherSummary` from `types.ts`. -/
structure WeatherSummary where
  next6h : WeatherSlice
  maxRainProbability : Option ℚ
  representativeTemp : Option ℚ
  maxWindSpeed : Option ℚ
  rainPenalty : ℚ
  tempPenalty : ℚ
  windPenalty : ℚ
  penalty : ℚ
deriving DecidableEq, Repr

/-- `AirQualitySummary` from `types.ts`. -/
structure AirQualitySummary where
  maxIndex : Option ℚ
  band : Option String
  penalty : ℚ
  stationName : Option String
deriving DecidableEq, Repr

/-- `computeTransitPenalty` from `scoring.ts`. -/
def computeTransitPenalty (lines : List NormalizedLineStatus) (config : LiveabilityConfig) : ℚ :=
  averagePenalty (lines.map (fun line => line.severityPoints)) config.scoring.fallbacks.transitPenalty

/-- `computeWaitPenalty` from `scoring.ts`. -/
def computeWaitPenalty (arrivals : List NormalizedStopArrivals) (config : LiveabilityConfig) : ℚ :=
  averagePenalty (arrivals.map (fun stop => stop.penalty)) config.scoring.fallbacks.waitPenalty

/-- `sliceNext6` from `scoring.ts`.  The source also filters with
`Number.isFinite`, which never drops anything in the exact-rational model. -/
def sliceNext6 (values : List ℚ) : List ℚ :=
  values.take 6

/-- `Math.max(...values)` over a non-empty spread, `none` when the list is
empty (the source guards with `values.length > 0`). -/
def listMax : List ℚ → Option ℚ
  | [] => none
  | x :: xs => some (xs.foldl max x)

/-- `computeWeatherPenalty` from `scoring.ts`. -/
def computeWeatherPenalty (weather : WeatherSlice) (config : LiveabilityConfig) : WeatherSummary :=
  let rain := sliceNext6 weather.precipitation_probability
  let temps := sliceNext6 weather.temperature_2m
  let wind := sliceNext6 weather.wind_speed_10m
  let maxRainProbability := listMax rain
  let representativeTemp := temps.head?
  let maxWindSpeed := listMax wind
  let rainPenalty :=
    match maxRainProbability with
    | none => config.scoring.fallbacks.weatherPenalty
    | some v => lookupBandPenalty v config.scoring.weatherPenalty.rainBands
  let tempConfig := config.scoring.weatherPenalty.tempComfort
  let tempPenalty :=
    match representativeTemp with
    | none => config.scoring.fallbacks.weatherPenalty
    | some t =>
      if tempConfig.idealMin ≤ t ∧ t ≤ tempConfig.idealMax then 0
      else if tempConfig.shoulderMin ≤ t ∧ t ≤ tempConfig.shoulderMax then tempConfig.shoulderPenalty
      else tempConfig.extremePenalty
  let windPenalty :=
    match maxWindSpeed with
    | none => config.scoring.fallbacks.weatherPenalty
    | some v => lookupBandPenalty v config.scoring.weatherPenalty.windBands
  { next6h :=
      { time := weather.time.take 6
        temperature_2m := temps
        precipitation_probability := rain
        wind_speed_10m := wind }
    maxRainProbability
    representativeTemp
    maxWindSpeed
    rainPenalty
    tempPenalty
    windPenalty
    penalty := round2 (rainPenalty + tempPenalty + windPenalty) }

/-- `computeAirPenalty` from `scoring.ts`. -/
def computeAirPenalty (air : AirQualitySummary) (config : LiveabilityConfig) : AirQualitySummary :=
  match air.maxIndex with
  | none => { air with penalty := config.scoring.fallbacks.airPenalty }
  | some _ => air

/-- The four metric penalties fed to the score composer. -/
structure Penalties where
  transit : ℚ
  wait : ℚ
  weather : ℚ
  air : ℚ
deriving DecidableEq, Repr

/-- Result record of `computeLiveabilityScore`. -/
structure ScoreResult where
  score : ℚ
  weightedTotal : ℚ
deriving DecidableEq, Repr

/-- `computeLiveabilityScore` from `scoring.ts`. -/
def computeLiveabilityScore (penalties : Penalties) (config : LiveabilityConfig) : ScoreResult :=
  let weightedTotal :=
    config.scoring.weights.transit * penalties.transit +
    config.scoring.weights.wait * penalties.wait +
    config.scoring.weights.weather * penalties.weather +
    config.scoring.weights.air * penalties.air
  { score := max 0 (min 100 (round2 (100 - weightedTotal)))
    weightedTotal := round2 weightedTotal }

/-- `normalizeTflArrivals` from `normalize.ts`.  Each raw payload item is
modelled by `Number(item?.timeToStation)`: `some s` when that coercion yields
a finite number, `none` when it yields `NaN` (missing or non-numeric field). -/
def normalizeTflArrivals (raw : List (Option ℚ)) (stopPointId label : String)
    (config : LiveabilityConfig) : NormalizedStopArrivals :=
  let minutes :=
    ((((raw.filterMap id).filter (fun value => 0 ≤ value)).insertionSort (· ≤ ·)).take 3).map
      (fun seconds => round1 (seconds / 60))
  let medianMinutes := median minutes
  let penalty :=
    match medianMinutes with
    | none => config.scoring.fallbacks.waitPenalty
    | some m => lookupBandPenalty m config.scoring.waitPenaltyBands
  { stopPointId
    label
    nextArrivalsMinutes := minutes
    medianMinutes
    penalty }

/-- A JSON value, the payload universe scanned by `summarizeErgAirQuality`. -/
inductive Json where
  | null : Json
  | bool (b : Bool) : Json
  | num (q : ℚ) : Json
  | str (s : String) : Json
  | arr (items : List Json) : Json
  | obj (fields : List (String × Json)) : Json

/-- `obj[key]` on a JSON object (JS objects carry unique keys). -/
def getField (fields : List (String × Json)) (key : String) : Option Json :=
  (fields.find? (fun f => f.1 = key)).map (fun f => f.2)

/-- JS `Number(candidate)` coercion for the candidate AQI values:
`NaN` (missing field, strings, arrays, objects) is `none`; string-to-number
parsing is not modelled, which only narrows the payload universe. -/
def jsNumber : Option Json → Option ℚ
  | some (Json.num q) => some q
  | some (Json.bool b) => some (if b then 1 else 0)
  | some Json.null => some 0
  | _ => none

/-- The nearest enclosing station name: `@SiteName` then `SiteName` when they
hold strings, else the inherited one (`summarizeErgAirQuality` in
`normalize.ts`). -/
def stationOf (fields : List (String × Json)) (current : Option String) : Option String :=
  match getField fields "@SiteName" with
  | some (Json.str s) => some s
  | _ =>
    match getField fields "SiteName" with
    | some (Json.str s) => some s
    | _ => current

/-- The candidate AQI readings pushed for one object: the four accepted key
spellings in source order, kept when `Number` yields an integer in `1..10`. -/
def candidateHits (fields : List (String × Json)) (station : Option String) :
    List (ℚ × Option String) :=
  (["@AQI", "AQI", "AQIIndex", "AirQualityIndex"]).filterMap (fun key =>
    match jsNumber (getField fields key) with
    | some value =>
      if value.den = 1 ∧ 1 ≤ value ∧ value ≤ 10 then some (value, station) else none
    | none => none)

mutual

/-- The recursive `visit` walk of `summarizeErgAirQuality`: arrays recurse
element-wise, objects push their candidate AQI readings and recurse into
every field value under the updated station name. -/
def collectAQI : Json → Option String → List (ℚ × Option String)
  | Json.arr items, station => collectAQIList items station
  | Json.obj fields, station =>
    let station2 := stationOf fields station
    candidateHits fields station2 ++ collectAQIFields fields station2
  | _, _ => []
termination_by j _ => sizeOf j
decreasing_by
  all_goals (simp <;> omega)

/-- The `visit` walk over the items of a JSON array. -/
def collectAQIList : List Json → Option String → List (ℚ × Option String)
  | [], _ => []
  | item :: rest, station => collectAQI item station ++ collectAQIList rest station
termination_by l _ => sizeOf l
decreasing_by
  all_goals (simp <;> omega)

/-- The `visit` walk over the field values of a JSON object. -/
def collectAQIFields : List (String × Json) → Option String → List (ℚ × Option String)
  | [], _ => []
  | field :: rest, station => collectAQI field.2 station ++ collectAQIFields rest station
termination_by l _ => sizeOf l
decreasing_by
  all_goals (first
    | (obtain ⟨a, b⟩ := field; simp <;> omega)
    | (simp <;> omega))

end

/-- `summarizeErgAirQuality` from `normalize.ts`: collect all AQI readings,
sort them by value descending (JS `sort` is stable, so ties keep traversal
order) and take the head; map it through `scoring.airPenalty` with the last
row as catch-all. -/
def summarizeErgAirQuality (raw : Json) (config : LiveabilityConfig) : AirQualitySummary :=
  let found := collectAQI raw none
  match (found.insertionSort (fun a b => b.1 ≤ a.1)).head? with
  | none =>
    { maxIndex := none
      band := none
      penalty := config.scoring.fallbacks.airPenalty
      stationName := none }
  | some maxHit =>
    let bandRow :=
      match config.scoring.airPenalty.find? (fun row => maxHit.1 ≤ row.maxIndex) with
      | some row => some row
      | none => config.scoring.airPenalty.getLast?
    { maxIndex := some maxHit.1
      band := bandRow.map (fun row => row.band)
      penalty :=
        match bandRow with
        | some row => row.penalty
        | none => config.scoring.fallbacks.airPenalty
      stationName := maxHit.2 }

/-- A parsed URL: the serialization of everything before the query string
(scheme, host, path) is kept abstract, the query is the ordered parameter list
exposed by `url.searchParams`. -/
structure UrlModel where
  base : String
  query : List (String × String)
deriving DecidableEq, Repr

/-- `URLSearchParams.set(key, value)`: replace the value of the first pair
with that key, delete any further pairs with the same key, append when the
key is absent. -/
def setParam : List (String × String) → String → String → List (String × String)
  | [], key, value => [(key, value)]
  | p :: ps, key, value =>
    if p.1 = key then (key, value) :: ps.filter (fun q => q.1 ≠ key)
    else p :: setParam ps key value

/-- `url.searchParams.has(key)`. -/
def hasParam (query : List (String × String)) (key : String) : Bool :=
  query.any (fun p => p.1 = key)

/-- The four authentication-bearing query keys redacted by
`sanitizeUrlForLineage` in `sources.ts`. -/
def redactKeys : List String := ["app_key", "api_key", "key", "token"]

/-- One iteration of the `sanitizeUrlForLineage` loop: when the key is
present, set its value to `"REDACTED"`. -/
def redactParam (query : List (String × String)) (key : String) : List (String × String) :=
  if hasParam query key then setParam query key "REDACTED" else query

/-- The searchParams mutation loop of `sanitizeUrlForLineage`: for each key
in `redactKeys`, when present set its value to `"REDACTED"`. -/
def sanitizeUrl (u : UrlModel) : UrlModel :=
  { u with query := redactKeys.foldl redactParam u.query }

/-- `url.searchParams.get(key)`: the value of the first pair carrying the
key. -/
def getParam (query : List (String × String)) (key : String) : Option String :=
  (query.find? (fun p => p.1 = key)).map (fun p => p.2)

/-- `url.toString()` for the model: the abstract base followed by the serialized
query string when the query is non-empty. -/
def renderUrl (u : UrlModel) : String :=
  match u.query with
  | [] => u.base
  | _ :: _ =>
    u.base ++ "?" ++ String.intercalate "&" (u.query.map (fun p => p.1 ++ "=" ++ p.2))

/-- `sanitizeUrlForLineage` from `sources.ts`: parse (already done in the
model), redact, serialize. -/
def sanitizeUrlForLineage (u : UrlModel) : String :=
  renderUrl (sanitizeUrl u)

/-- `RequestTrace` from `sources.ts` (`method` is always `'GET'`). -/
structure RequestTrace where
  source : String
  method : String
  url : String
  note : Option String
deriving DecidableEq, Repr

/-- `trace` from `sources.ts`: the stored trace carries the sanitized URL. -/
def trace (u : UrlModel) (source : String) (note : Option String) : RequestTrace :=
  { source
    method := "GET"
    url := sanitizeUrlForLineage u
    note }

/-- One persisted history point (`HistoryPayload['points']` element);
`tsUtc` is the ISO timestamp modelled by its epoch value in milliseconds,
matching `new Date(point.tsUtc).getTime()`. -/
structure HistoryPoint where
  tsUtc : ℤ
  score : ℚ
  penalties : Penalties
deriving DecidableEq, Repr

/-- `Array.prototype.slice(-n)` for `n ≥ 0`: the last `n` elements, the whole
list when `n = 0` (JS `slice(-0)` is `slice(0)`). -/
def jsSliceLast (l : List HistoryPoint) (n : ℕ) : List HistoryPoint :=
  if n = 0 then l else l.drop (l.length - n)

/-- `trimHistory` from `collect.ts`: keep points within `retentionDays` of
`now` (both in epoch milliseconds), then cap to the last
`retentionDays * 24 * 12` points. -/
def trimHistory (points : List HistoryPoint) (retentionDays : ℕ) (now : ℤ) : List HistoryPoint :=
  let cutoff := now - (retentionDays : ℤ) * 24 * 60 * 60 * 1000
  jsSliceLast (points.filter (fun point => cutoff ≤ point.tsUtc)) (retentionDays * 24 * 12)

/-- `SourceStatus` from `types.ts`. -/
inductive SourceStatus where
  | ok : SourceStatus
  | disabled : SourceStatus
  | error : SourceStatus
deriving DecidableEq, Repr

/-- The per-run source status map of `collectOnce`. -/
structure SourceStatuses where
  tfl : SourceStatus
  openMeteo : SourceStatus
  ergAirQuality : SourceStatus
deriving DecidableEq, Repr

/-- Per-run fetch outcomes feeding `collectOnce`, one per enabled source:
`some` carries the (already normalized, for TfL) successful response, `none`
is a caught fetch failure.  This factors the `try`/`catch` blocks of
`collectOnce`: on failure the normalized values keep their empty / null
starting values. -/
structure CollectInputs where
  tflData : Option (List NormalizedLineStatus × List NormalizedStopArrivals)
  weatherData : Option WeatherSlice
  airData : Option Json

/-- The `fallbackUsed` flags of the four component `LineageMetric` records
built by `buildLineage` in `collect.ts`. -/
structure LineageFallbackFlags where
  transit : Bool
  wait : Bool
  weather : Bool
  air : Bool
deriving DecidableEq, Repr

/-- The scored outputs of one `collectOnce` run (the slice of its result that
claims about fallback routing talk about). -/
structure CollectResult where
  sourceStatuses : SourceStatuses
  tflStatusLines : List NormalizedLineStatus
  tflArrivals : List NormalizedStopArrivals
  weatherRaw : WeatherSlice
  transitPenalty : ℚ
  waitPenalty : ℚ
  weatherSummary : WeatherSummary
  finalAir : AirQualitySummary
  penalties : Penalties
  scoreResult : ScoreResult
  lineageFallbackUsed : LineageFallbackFlags

/-- The empty `WeatherSlice` starting value of `collectOnce`. -/
def emptyWeatherSlice : WeatherSlice :=
  { time := [], temperature_2m := [], precipitation_probability := [], wind_speed_10m := [] }

/-- The per-run status of the TfL source in `collectOnce` (`ok` on fetch
success, `error` on a caught failure, `disabled` when not enabled). -/
def tflStatusOf (config : LiveabilityConfig) (inputs : CollectInputs) : SourceStatus :=
  if config.sources.tflEnabled then
    match inputs.tflData with
    | some _ => SourceStatus.ok
    | none => SourceStatus.error
  else SourceStatus.disabled

/-- The per-run status of the Open-Meteo source in `collectOnce`. -/
def openMeteoStatusOf (config : LiveabilityConfig) (inputs : CollectInputs) : SourceStatus :=
  if config.sources.openMeteoEnabled then
    match inputs.weatherData with
    | some _ => SourceStatus.ok
    | none => SourceStatus.error
  else SourceStatus.disabled

/-- The per-run status of the ERG air-quality source in `collectOnce`. -/
def ergStatusOf (config : LiveabilityConfig) (inputs : CollectInputs) : SourceStatus :=
  if config.sources.ergEnabled then
    match inputs.airData with
    | some _ => SourceStatus.ok
    | none => SourceStatus.error
  else SourceStatus.disabled

/-- The `tflStatusLines` variable of `collectOnce`: empty unless the TfL
fetch succeeded. -/
def tflStatusLinesOf (config : LiveabilityConfig) (inputs : CollectInputs) :
    List NormalizedLineStatus :=
  if config.sources.tflEnabled then
    match inputs.tflData with
    | some d => d.1
    | none => []
  else []

/-- The `tflArrivals` variable of `collectOnce`. -/
def tflArrivalsOf (config : LiveabilityConfig) (inputs : CollectInputs) :
    List NormalizedStopArrivals :=
  if config.sources.tflEnabled then
    match inputs.tflData with
    | some d => d.2
    | none => []
  else []

/-- The `weatherRaw` variable of `collectOnce`: the empty slice unless the
Open-Meteo fetch succeeded. -/
def weatherRawOf (config : LiveabilityConfig) (inputs : CollectInputs) : WeatherSlice :=
  if config.sources.openMeteoEnabled then
    match inputs.weatherData with
    | some w => w
    | none => emptyWeatherSlice
  else emptyWeatherSlice

/-- The `airSummary` variable of `collectOnce`: the summary of `null` unless
the ERG fetch succeeded. -/
def airSummaryOf (config : LiveabilityConfig) (inputs : CollectInputs) : AirQualitySummary :=
  if config.sources.ergEnabled then
    match inputs.airData with
    | some j => summarizeErgAirQuality j config
    | none => summarizeErgAirQuality Json.null config
  else summarizeErgAirQuality Json.null config

/-- The `transitPenalty` variable of `collectOnce`. -/
def transitPenaltyOf (config : LiveabilityConfig) (inputs : CollectInputs) : ℚ :=
  if tflStatusOf config inputs = SourceStatus.disabled then
    config.scoring.fallbacks.transitPenalty
  else computeTransitPenalty (tflStatusLinesOf config inputs) config

/-- The `waitPenalty` variable of `collectOnce`. -/
def waitPenaltyOf (config : LiveabilityConfig) (inputs : CollectInputs) : ℚ :=
  if tflStatusOf config inputs = SourceStatus.disabled then
    config.scoring.fallbacks.waitPenalty
  else computeWaitPenalty (tflArrivalsOf config inputs) config

/-- The `weatherSummary` variable of `collectOnce`. -/
def weatherSummaryOf (config : LiveabilityConfig) (inputs : CollectInputs) : WeatherSummary :=
  if openMeteoStatusOf config inputs = SourceStatus.disabled then
    { next6h := emptyWeatherSlice
      maxRainProbability := none
      representativeTemp := none
      maxWindSpeed := none
      rainPenalty := config.scoring.fallbacks.weatherPenalty
      tempPenalty := config.scoring.fallbacks.weatherPenalty
      windPenalty := config.scoring.fallbacks.weatherPenalty
      penalty := config.scoring.fallbacks.weatherPenalty }
  else computeWeatherPenalty (weatherRawOf config inputs) config

/-- The `finalAir` variable of `collectOnce`. -/
def finalAirOf (config : LiveabilityConfig) (inputs : CollectInputs) : AirQualitySummary :=
  if ergStatusOf config inputs = SourceStatus.disabled then
    { maxIndex := none
      band := none
      penalty := config.scoring.fallbacks.airPenalty
      stationName := none }
  else computeAirPenalty (airSummaryOf config inputs) config

/-- The emitted `penalties` record of `collectOnce` (each rounded to two
decimals by the `round` helper). -/
def penaltiesOf (config : LiveabilityConfig) (inputs : CollectInputs) : Penalties :=
  { transit := round2 (transitPenaltyOf config inputs)
    wait := round2 (waitPenaltyOf config inputs)
    weather := round2 (weatherSummaryOf config inputs).penalty
    air := round2 (finalAirOf config inputs).penalty }

/-- The `fallbackUsed` booleans of the four component `LineageMetric`
records built by `buildLineage` in `collect.ts` (lines 168-187). -/
def lineageFallbackUsedOf (config : LiveabilityConfig) (inputs : CollectInputs) :
    LineageFallbackFlags :=
  { transit := tflStatusOf config inputs ≠ SourceStatus.ok ∨
      (tflStatusLinesOf config inputs).length = 0
    wait := tflStatusOf config inputs ≠ SourceStatus.ok ∨
      ((tflArrivalsOf config inputs).filter
        (fun stop => stop.nextArrivalsMinutes.length ≠ 0)).length = 0
    weather := openMeteoStatusOf config inputs ≠ SourceStatus.ok ∨
      (weatherRawOf config inputs).time.length = 0
    air := ergStatusOf config inputs ≠ SourceStatus.ok ∨
      (finalAirOf config inputs).maxIndex = none }

/-- The fetch → normalize → score → lineage stage of `collectOnce` in
`collect.ts` (file I/O, provenance and narrative strings omitted), assembled
from the per-variable functions above, which factor its `let` chain. -/
def collectOnce (config : LiveabilityConfig) (inputs : CollectInputs) : CollectResult :=
  { sourceStatuses :=
      { tfl := tflStatusOf config inputs
        openMeteo := openMeteoStatusOf config inputs
        ergAirQuality := ergStatusOf config inputs }
    tflStatusLines := tflStatusLinesOf config inputs
    tflArrivals := tflArrivalsOf config inputs
    weatherRaw := weatherRawOf config inputs
    transitPenalty := transitPenaltyOf config inputs
    waitPenalty := waitPenaltyOf config inputs
    weatherSummary := weatherSummaryOf config inputs
    finalAir := finalAirOf config inputs
    penalties := penaltiesOf config inputs
    scoreResult := computeLiveabilityScore (penaltiesOf config inputs) config
    lineageFallbackUsed := lineageFallbackUsedOf config inputs }

/-- The default configuration shipped in `config/liveability.yaml`. -/
def defaultConfig : LiveabilityConfig :=
  { sources := { tflEnabled := true, openMeteoEnabled := true, ergEnabled := true }
    scoring :=
      { weights := { transit := 1, wait := 1, weather := 8/10, air := 1 }
        fallbacks :=
          { transitPenalty := 15, waitPenalty := 15, weatherPenalty := 10, airPenalty := 10 }
        transitSeverityPoints :=
          { goodService := 0, minorDelays := 10, severeDelays := 25
            partSuspended := 35, suspended := 50, unknown := 15 }
        waitPenaltyBands :=
          [⟨3, 0⟩, ⟨7, 10⟩, ⟨12, 20⟩, ⟨999, 35⟩]
        weatherPenalty :=
          { rainBands := [⟨20, 0⟩, ⟨50, 10⟩, ⟨80, 20⟩, ⟨100, 30⟩]
            tempComfort :=
              { idealMin := 16, idealMax := 22, shoulderMin := 10, shoulderMax := 27
                shoulderPenalty := 8, extremePenalty := 16 }
            windBands := [⟨20, 0⟩, ⟨35, 5⟩, ⟨999, 10⟩] }
        airPenalty :=
          [⟨3, 0, "Low"⟩, ⟨6, 10, "Moderate"⟩, ⟨9, 25, "High"⟩, ⟨10, 35, "Very High"⟩] }
    historyRetentionDays := 7 }

/-! ### Shared lemmas -/

theorem round_mono_rat {a b : ℚ} (h : a ≤ b) : round a ≤ round b := by
  rw [round_eq, round_eq]
  exact Int.floor_mono (by linarith)

theorem round2_mono {a b : ℚ} (h : a ≤ b) : round2 a ≤ round2 b := by
  unfold round2
  have h1 : round (a * 100) ≤ round (b * 100) := round_mono_rat (by linarith)
  have h2 : ((round (a * 100) : ℤ) : ℚ) ≤ ((round (b * 100) : ℤ) : ℚ) := by exact_mod_cast h1
  linarith

theorem round2_zero : round2 0 = 0 := by
  simp [round2]

theorem round2_hundred : round2 100 = 100 := by
  norm_num [round2]

/-- Two-decimal rounding commutes with clamping to `[0, 100]`. -/
theorem clamp_round2 (x : ℚ) :
    max 0 (min 100 (round2 x)) = round2 (max 0 (min 100 x)) := by
  rcases le_total x 0 with h0 | h0
  · have hr : round2 x ≤ 0 := round2_zero ▸ round2_mono h0
    have e1 : min (100 : ℚ) x = x := min_eq_right (le_trans h0 (by norm_num))
    have e2 : max (0 : ℚ) x = 0 := max_eq_left h0
    have e3 : min (100 : ℚ) (round2 x) = round2 x := min_eq_right (le_trans hr (by norm_num))
    have e4 : max (0 : ℚ) (round2 x) = 0 := max_eq_left hr
    rw [e1, e2, e3, e4, round2_zero]
  · rcases le_total x 100 with h1 | h1
    · have hr0 : (0 : ℚ) ≤ round2 x := round2_zero ▸ round2_mono h0
      have hr1 : round2 x ≤ 100 := round2_hundred ▸ round2_mono h1
      rw [min_eq_right h1, max_eq_right h0, min_eq_right hr1, max_eq_right hr0]
    · have hr : (100 : ℚ) ≤ round2 x := round2_hundred ▸ round2_mono h1
      have e1 : min (100 : ℚ) x = 100 := min_eq_left h1
      have e2 : max (0 : ℚ) (100 : ℚ) = 100 := max_eq_right (by norm_num)
      have e3 : min (100 : ℚ) (round2 x) = 100 := min_eq_left hr
      rw [e1, e2, e3, e2, round2_hundred]

/-! ### Claim C1 — score composer -/

/-- Claim C1: for all finite penalties and finite non-negative weights the
composer reports `weightedTotal` as the weighted sum rounded to two decimals
and `score` as `clamp(100 − weightedTotal, 0, 100)` rounded to two decimals
(the clamp applied to the exact weighted sum), so `0 ≤ score ≤ 100`; and
penalties `{10, 20, 56, 10}` under the default weights `{1, 1, 0.8, 1}` give
weighted total `84.8` and score `15.2`. -/
theorem computeLiveabilityScore_spec (penalties : Penalties) (config : LiveabilityConfig)
    (hw : 0 ≤ config.scoring.weights.transit ∧ 0 ≤ config.scoring.weights.wait ∧
      0 ≤ config.scoring.weights.weather ∧ 0 ≤ config.scoring.weights.air) :
    (computeLiveabilityScore penalties config).weightedTotal =
      round2 (config.scoring.weights.transit * penalties.transit +
        config.scoring.weights.wait * penalties.wait +
        config.scoring.weights.weather * penalties.weather +
        config.scoring.weights.air * penalties.air) ∧
    (computeLiveabilityScore penalties config).score =
      round2 (max 0 (min 100 (100 - (config.scoring.weights.transit * penalties.transit +
        config.scoring.weights.wait * penalties.wait +
        config.scoring.weights.weather * penalties.weather +
        config.scoring.weights.air * penalties.air)))) ∧
    0 ≤ (computeLiveabilityScore penalties config).score ∧
    (computeLiveabilityScore penalties config).score ≤ 100 ∧
    computeLiveabilityScore ⟨10, 20, 56, 10⟩ defaultConfig =
      ⟨152/10, 848/10⟩ := by
  refine ⟨rfl, ?_, le_max_left 0 _, max_le (by norm_num) (min_le_left 100 _), ?_⟩
  · simpa [computeLiveabilityScore] using clamp_round2 (100 -
      (config.scoring.weights.transit * penalties.transit +
        config.scoring.weights.wait * penalties.wait +
        config.scoring.weights.weather * penalties.weather +
        config.scoring.weights.air * penalties.air))
  · norm_num [computeLiveabilityScore, defaultConfig, round2]

/-- Witness for claim C1 at the default weights and the §8 composite
scenario penalties. -/
theorem computeLiveabilityScore_spec_witness :
    (0 : ℚ) ≤ 1 ∧ (computeLiveabilityScore ⟨10, 20, 56, 10⟩ defaultConfig).score = 152/10 := by
  have h := computeLiveabilityScore_spec ⟨10, 20, 56, 10⟩ defaultConfig
    (by refine ⟨?_, ?_, ?_, ?_⟩ <;> norm_num [defaultConfig])
  exact ⟨by norm_num, by rw [h.2.2.2.2]⟩

/-! ### Claim C2 — band lookup -/

theorem find?_of_first {α : Type} (p : α → Bool) :
    ∀ (l : List α) (i : ℕ) (hi : i < l.length),
      (∀ j (hj : j < l.length), j < i → ¬ p (l.get ⟨j, hj⟩)) →
      p (l.get ⟨i, hi⟩) → l.find? p = some (l.get ⟨i, hi⟩)
  | [], i, hi, _, _ => absurd hi (by simp)
  | a :: l, 0, _, _, hp => by
    simp only [List.get] at hp
    simp [List.find?_cons_of_pos _ hp]
  | a :: l, i + 1, hi, hnot, hp => by
    have ha : ¬ p a := hnot 0 (by simp) (Nat.succ_pos i)
    rw [List.find?_cons_of_neg _ ha]
    exact find?_of_first p l i (by simpa using Nat.lt_of_succ_lt_succ hi)
      (fun j hj hji => hnot (j + 1) (by simpa using Nat.succ_lt_succ hj)
        (Nat.succ_lt_succ hji)) hp

theorem lookupBandPenalty_eq_spec (value : ℚ) :
    ∀ bands : List BandRow, lookupBandPenalty value bands = lookupBandPenaltySpec value bands
  | [] => rfl
  | row :: rest => by
    by_cases h : value ≤ row.limit
    · have hp : (fun item : BandRow => decide (value ≤ item.limit)) row = true := by simp [h]
      simp [lookupBandPenalty, lookupBandPenaltySpec, h, List.find?_cons_of_pos _ hp]
    · have hn : ¬ (fun item : BandRow => decide (value ≤ item.limit)) row = true := by simp [h]
      cases rest with
      | nil =>
        simp [lookupBandPenalty, lookupBandPenaltySpec, h, List.find?_cons_of_neg _ hn]
      | cons r rs =>
        have ih := lookupBandPenalty_eq_spec value (r :: rs)
        have hspec : lookupBandPenaltySpec value (row :: r :: rs) =
            lookupBandPenaltySpec value (r :: rs) := by
          simp [lookupBandPenaltySpec, h]
        have hfind : List.find? (fun item : BandRow => decide (value ≤ item.limit))
            (row :: r :: rs) =
            List.find? (fun item : BandRow => decide (value ≤ item.limit)) (r :: rs) :=
          List.find?_cons_of_neg _ hn
        rw [hspec, ← ih, lookupBandPenalty, lookupBandPenalty, hfind,
          List.getLast?_cons_cons]

/-- Claim C2: on any band table the lookup agrees with the spec contract
(first row whose threshold is ≥ the value, else the last row's penalty, else
`0` on the empty table — totality is by construction); and on a table with
strictly ascending thresholds, a value exactly equal to some row's threshold
resolves to that row's penalty. -/
theorem lookupBandPenalty_first_threshold (value : ℚ) (bands : List BandRow)
    (hasc : bands.Pairwise (fun a b => a.limit < b.limit)) :
    lookupBandPenalty value bands = lookupBandPenaltySpec value bands ∧
    ∀ i (hi : i < bands.length), value = (bands.get ⟨i, hi⟩).limit →
      lookupBandPenalty value bands = (bands.get ⟨i, hi⟩).penalty := by
  refine ⟨lookupBandPenalty_eq_spec value bands, ?_⟩
  intro i hi hval
  have hpair := (List.pairwise_iff_get).mp hasc
  have hfind : bands.find? (fun item => value ≤ item.limit) = some (bands.get ⟨i, hi⟩) := by
    refine find?_of_first _ bands i hi ?_ (by simpa using le_of_eq hval)
    intro j hj hji
    have hlt : (bands.get ⟨j, hj⟩).limit < (bands.get ⟨i, hi⟩).limit := hpair ⟨j, hj⟩ ⟨i, hi⟩ hji
    simp only [decide_eq_true_eq]
    rw [hval]
    exact not_le.mpr hlt
  rw [lookupBandPenalty, hfind]

/-- Witness for claim C2 on the default wait-band table at the boundary
value `7`. -/
theorem lookupBandPenalty_first_threshold_witness :
    lookupBandPenalty 7 defaultConfig.scoring.waitPenaltyBands = 10 := by
  have h := lookupBandPenalty_first_threshold 7 defaultConfig.scoring.waitPenaltyBands
    (by norm_num [defaultConfig, List.pairwise_cons])
  have h2 := h.2 1 (by norm_num [defaultConfig]) (by norm_num [defaultConfig])
  simpa [defaultConfig] using h2

/-! ### Claim C6 — transit / wait aggregators -/

/-- Claim C6: the transit and wait aggregators return the arithmetic mean of
the per-item penalties rounded to two decimals on a non-empty list, and
exactly the metric's configured fallback on an empty list (never `NaN` —
inexpressible in exact arithmetic — and never a default `0`). -/
theorem aggregators_mean_or_fallback (lines : List NormalizedLineStatus)
    (arrivals : List NormalizedStopArrivals) (config : LiveabilityConfig) :
    computeTransitPenalty lines config =
      (if lines = [] then config.scoring.fallbacks.transitPenalty
       else round2 ((lines.map (fun line => line.severityPoints)).sum / (lines.length : ℚ))) ∧
    computeWaitPenalty arrivals config =
      (if arrivals = [] then config.scoring.fallbacks.waitPenalty
       else round2 ((arrivals.map (fun stop => stop.penalty)).sum / (arrivals.length : ℚ))) := by
  constructor
  · cases lines with
    | nil => simp [computeTransitPenalty, averagePenalty]
    | cons a l => simp [computeTransitPenalty, averagePenalty, average]
  · cases arrivals with
    | nil => simp [computeWaitPenalty, averagePenalty]
    | cons a l => simp [computeWaitPenalty, averagePenalty, average]

/-! ### Claim C5 — history retention -/

/-- Claim C5: appending the new point and trimming keeps only points within
the retention window of `now`, caps the length at `24 * 12` points per day
times `retentionDays` (dropping from the front of the filtered list, i.e.
oldest-first), and preserves non-decreasing timestamp order whenever the
previous series was ordered and the new point is not backdated.
`retentionDays ≥ 1` mirrors the config validation (`1..30`). -/
theorem trimHistory_retention (prev : List HistoryPoint) (newPoint : HistoryPoint)
    (retentionDays : ℕ) (now : ℤ) (hr : 1 ≤ retentionDays) :
    (∀ p ∈ trimHistory (prev ++ [newPoint]) retentionDays now,
      now - (retentionDays : ℤ) * 24 * 60 * 60 * 1000 ≤ p.tsUtc) ∧
    (trimHistory (prev ++ [newPoint]) retentionDays now).length ≤ retentionDays * 24 * 12 ∧
    trimHistory (prev ++ [newPoint]) retentionDays now <:+
      (prev ++ [newPoint]).filter
        (fun p => now - (retentionDays : ℤ) * 24 * 60 * 60 * 1000 ≤ p.tsUtc) ∧
    ((prev.map (fun p => p.tsUtc)).Sorted (· ≤ ·) →
      (∀ p ∈ prev, p.tsUtc ≤ newPoint.tsUtc) →
      ((trimHistory (prev ++ [newPoint]) retentionDays now).map
        (fun p => p.tsUtc)).Sorted (· ≤ ·)) := by
  have hcap : retentionDays * 24 * 12 ≠ 0 := by positivity
  set pred := fun p : HistoryPoint =>
    decide (now - (retentionDays : ℤ) * 24 * 60 * 60 * 1000 ≤ p.tsUtc) with hpred
  have htrim : trimHistory (prev ++ [newPoint]) retentionDays now =
      ((prev ++ [newPoint]).filter pred).drop
        (((prev ++ [newPoint]).filter pred).length - retentionDays * 24 * 12) := by
    simp [trimHistory, jsSliceLast, hcap, hpred]
  refine ⟨?_, ?_, ?_, ?_⟩
  · intro p hp
    rw [htrim] at hp
    have hmem := List.mem_of_mem_drop hp
    have := (List.mem_filter.mp hmem).2
    exact of_decide_eq_true this
  · rw [htrim, List.length_drop]
    omega
  · rw [htrim]
    exact List.drop_suffix _ _
  · intro hsorted hnotback
    have happend : ((prev ++ [newPoint]).map (fun p => p.tsUtc)).Sorted (· ≤ ·) := by
      rw [List.map_append]
      refine List.pairwise_append.mpr ⟨hsorted, List.pairwise_singleton _ _, ?_⟩
      intro a ha b hb
      obtain ⟨q, hq, rfl⟩ := List.mem_map.mp ha
      simp only [List.map_cons, List.map_nil, List.mem_singleton] at hb
      subst hb
      exact hnotback q hq
    have hsub : List.Sublist (trimHistory (prev ++ [newPoint]) retentionDays now)
        (prev ++ [newPoint]) := by
      rw [htrim]
      exact ((List.drop_sublist _ _).trans (List.filter_sublist _))
    exact happend.sublist (hsub.map (fun p => p.tsUtc))

/-- Witness for claim C5 on a two-point series with one-day retention. -/
theorem trimHistory_retention_witness :
    (1 : ℕ) ≤ 1 ∧
    (trimHistory ([⟨0, 50, ⟨10, 10, 10, 10⟩⟩] ++ [⟨1000, 60, ⟨10, 10, 10, 10⟩⟩]) 1
      1000).length ≤ 1 * 24 * 12 := by
  have h := trimHistory_retention [⟨0, 50, ⟨10, 10, 10, 10⟩⟩] ⟨1000, 60, ⟨10, 10, 10, 10⟩⟩
    1 1000 (le_refl 1)
  exact ⟨le_refl 1, h.2.1⟩

/-! ### Claim C7 — arrivals normalizer -/

theorem round1_mono {a b : ℚ} (h : a ≤ b) : round1 a ≤ round1 b := by
  unfold round1
  have h1 : round (a * 10) ≤ round (b * 10) := round_mono_rat (by linarith)
  have h2 : ((round (a * 10) : ℤ) : ℚ) ≤ ((round (b * 10) : ℤ) : ℚ) := by exact_mod_cast h1
  linarith

theorem median_odd (values : List ℚ) (hodd : values.length % 2 = 1) :
    median values = (values.insertionSort (· ≤ ·)).get? (values.length / 2) := by
  have hne : ¬ values.length = 0 := by omega
  rw [median, if_neg hne]
  simp only [List.length_insertionSort, if_pos hodd]

theorem median_even (values : List ℚ) (hne : values.length ≠ 0)
    (heven : values.length % 2 = 0) :
    ∃ left right,
      (values.insertionSort (· ≤ ·)).get? (values.length / 2 - 1) = some left ∧
      (values.insertionSort (· ≤ ·)).get? (values.length / 2) = some right ∧
      median values = some ((left + right) / 2) := by
  have hmid : values.length / 2 < values.length := Nat.div_lt_self (by omega) (by norm_num)
  have hmid1 : values.length / 2 - 1 < values.length := by omega
  have hlen : (values.insertionSort (· ≤ ·)).length = values.length :=
    List.length_insertionSort _ _
  have hleft := List.get?_eq_get
    (show values.length / 2 - 1 < (values.insertionSort (· ≤ ·)).length from hlen ▸ hmid1)
  have hright := List.get?_eq_get
    (show values.length / 2 < (values.insertionSort (· ≤ ·)).length from hlen ▸ hmid)
  refine ⟨_, _, hleft, hright, ?_⟩
  rw [median, if_neg hne]
  simp only [List.length_insertionSort]
  rw [if_neg (by omega), hleft, hright]

theorem minutes_sorted (raw : List (Option ℚ)) :
    (((((raw.filterMap id).filter (fun value => 0 ≤ value)).insertionSort (· ≤ ·)).take 3).map
      (fun seconds => round1 (seconds / 60))).Sorted (· ≤ ·) := by
  have hs : ((((raw.filterMap id).filter (fun value => 0 ≤ value)).insertionSort
      (· ≤ ·))).Sorted (· ≤ ·) := List.sorted_insertionSort _ _
  have ht : (((((raw.filterMap id).filter (fun value => 0 ≤ value)).insertionSort
      (· ≤ ·))).take 3).Sorted (· ≤ ·) := hs.sublist (List.take_sublist _ _)
  exact ht.map _ (fun a b hab => round1_mono (by linarith))

/-- Claim C7: the arrivals normalizer keeps the non-negative finite countdown
seconds sorted ascending, truncated to three and converted to minutes rounded
to one decimal, so the reduced list is ascending and of length at most three;
the median is absent exactly when that list is empty, in which case the wait
fallback is used, and otherwise the penalty is the wait-band lookup of the
median (middle element for odd counts, mean of the two middle elements for
even counts); countdowns `[120, 360, 600, 1800]` give minutes `[2, 6, 10]`,
median `6` and default-band penalty `10`. -/
theorem normalizeTflArrivals_spec (raw : List (Option ℚ)) (stopPointId label : String)
    (config : LiveabilityConfig) :
    (normalizeTflArrivals raw stopPointId label config).nextArrivalsMinutes =
      ((((raw.filterMap id).filter (fun value => 0 ≤ value)).insertionSort (· ≤ ·)).take 3).map
        (fun seconds => round1 (seconds / 60)) ∧
    (normalizeTflArrivals raw stopPointId label config).nextArrivalsMinutes.length ≤ 3 ∧
    (normalizeTflArrivals raw stopPointId label config).nextArrivalsMinutes.Sorted (· ≤ ·) ∧
    ((normalizeTflArrivals raw stopPointId label config).medianMinutes = none ↔
      (normalizeTflArrivals raw stopPointId label config).nextArrivalsMinutes = []) ∧
    ((normalizeTflArrivals raw stopPointId label config).medianMinutes = none →
      (normalizeTflArrivals raw stopPointId label config).penalty =
        config.scoring.fallbacks.waitPenalty) ∧
    (∀ m, (normalizeTflArrivals raw stopPointId label config).medianMinutes = some m →
      (normalizeTflArrivals raw stopPointId label config).penalty =
        lookupBandPenalty m config.scoring.waitPenaltyBands) ∧
    (∀ values : List ℚ, values.length % 2 = 1 →
      median values = (values.insertionSort (· ≤ ·)).get? (values.length / 2)) ∧
    (∀ values : List ℚ, values.length ≠ 0 → values.length % 2 = 0 →
      ∃ left right,
        (values.insertionSort (· ≤ ·)).get? (values.length / 2 - 1) = some left ∧
        (values.insertionSort (· ≤ ·)).get? (values.length / 2) = some right ∧
        median values = some ((left + right) / 2)) ∧
    normalizeTflArrivals [some 120, some 360, some 600, some 1800] stopPointId label
      defaultConfig =
      ⟨stopPointId, label, [2, 6, 10], some 6, 10⟩ := by
  refine ⟨rfl, ?_, minutes_sorted raw, ?_, ?_, ?_, median_odd, median_even, ?_⟩
  · calc (normalizeTflArrivals raw stopPointId label config).nextArrivalsMinutes.length
        = (((((raw.filterMap id).filter (fun value => 0 ≤ value)).insertionSort
            (· ≤ ·)).take 3)).length := by simp [normalizeTflArrivals]
      _ ≤ 3 := by simpa using List.length_take_le 3 _
  · constructor
    · intro hnone
      by_contra hne
      have hlen : (normalizeTflArrivals raw stopPointId label config).nextArrivalsMinutes.length
          ≠ 0 := fun h => hne (List.length_eq_zero.mp h)
      have : (normalizeTflArrivals raw stopPointId label config).medianMinutes =
          median (normalizeTflArrivals raw stopPointId label config).nextArrivalsMinutes := rfl
      rw [this, median, if_neg hlen] at hnone
      set sorted := ((normalizeTflArrivals raw stopPointId label
        config).nextArrivalsMinutes).insertionSort (· ≤ ·) with hsorted
      have hslen : sorted.length =
          (normalizeTflArrivals raw stopPointId label config).nextArrivalsMinutes.length :=
        List.length_insertionSort _ _
      by_cases hodd : sorted.length % 2 = 1
      · rw [if_pos (by simpa [hslen] using hodd)] at hnone
        have : sorted.length / 2 < sorted.length := Nat.div_lt_self (by omega) (by norm_num)
        rw [List.get?_eq_get (by simpa [hslen] using this)] at hnone
        exact Option.some_ne_none _ hnone
      · rw [if_neg (by simpa [hslen] using hodd)] at hnone
        have hmid : sorted.length / 2 < sorted.length := Nat.div_lt_self (by omega) (by norm_num)
        have hmid1 : sorted.length / 2 - 1 < sorted.length := by omega
        rw [List.get?_eq_get (by simpa [hslen] using hmid1),
          List.get?_eq_get (by simpa [hslen] using hmid)] at hnone
        exact Option.some_ne_none _ hnone
    · intro hempty
      have : (normalizeTflArrivals raw stopPointId label config).medianMinutes =
          median (normalizeTflArrivals raw stopPointId label config).nextArrivalsMinutes := rfl
      rw [this, hempty]
      rfl
  · intro hnone
    have hpen : (normalizeTflArrivals raw stopPointId label config).penalty =
        match (normalizeTflArrivals raw stopPointId label config).medianMinutes with
        | none => config.scoring.fallbacks.waitPenalty
        | some m => lookupBandPenalty m config.scoring.waitPenaltyBands := rfl
    rw [hpen, hnone]
  · intro m hm
    have hpen : (normalizeTflArrivals raw stopPointId label config).penalty =
        match (normalizeTflArrivals raw stopPointId label config).medianMinutes with
        | none => config.scoring.fallbacks.waitPenalty
        | some m => lookupBandPenalty m config.scoring.waitPenaltyBands := rfl
    rw [hpen, hm]
  · norm_num [normalizeTflArrivals, median, List.insertionSort, List.orderedInsert,
      round1, lookupBandPenalty, defaultConfig, List.find?]

/-! ### Claim C8 — weather summary -/

/-- The §8 weather scenario slice: next-6h temperature, rain probability and
wind speed windows. -/
def scenarioWeatherSlice : WeatherSlice :=
  { time := []
    temperature_2m := [8, 9, 10, 11, 12, 13]
    precipitation_probability := [10, 40, 55, 80, 90, 30]
    wind_speed_10m := [15, 19, 22, 28, 36, 18] }

/-- A configuration identical to the default one except that the only rain
band carries a quarter-hundredth penalty, exposing the two-decimal rounding
of the weather total. -/
def thousandthRainConfig : LiveabilityConfig :=
  { defaultConfig with
    scoring :=
      { defaultConfig.scoring with
        weatherPenalty :=
          { defaultConfig.scoring.weatherPenalty with
            rainBands := [⟨100, 1/1000⟩] } } }

/-- Claim C8 counterexample: with a rain-band penalty of `0.001` the emitted
weather penalty is the two-decimal rounding of the component sum, not the
exact sum, refuting "the total weather penalty is exactly the sum". -/
theorem weather_total_not_exact_sum :
    ¬ ((computeWeatherPenalty ⟨[], [20], [50], [5]⟩ thousandthRainConfig).penalty =
      (computeWeatherPenalty ⟨[], [20], [50], [5]⟩ thousandthRainConfig).rainPenalty +
      (computeWeatherPenalty ⟨[], [20], [50], [5]⟩ thousandthRainConfig).tempPenalty +
      (computeWeatherPenalty ⟨[], [20], [50], [5]⟩ thousandthRainConfig).windPenalty) := by
  norm_num [computeWeatherPenalty, sliceNext6, listMax, lookupBandPenalty,
    thousandthRainConfig, defaultConfig, round2, round_eq, List.find?]

/-- Claim C8 (amended): the weather summary takes the rain penalty from the
maximum rain probability over the first six entries via the rain bands, the
wind penalty from the maximum wind speed via the wind bands, the temperature
penalty from the first entry via the three-tier comfort rule, each component
falling back to the configured weather fallback on an empty window; the
total is the component sum **rounded to two decimal places** (equal to the
exact sum whenever the components are whole hundredths); the §8 scenario
yields rain `30`, temperature `16`, wind `10` and total `56`. -/
theorem computeWeatherPenalty_components (weather : WeatherSlice) (config : LiveabilityConfig) :
    (computeWeatherPenalty weather config).rainPenalty =
      (match listMax (weather.precipitation_probability.take 6) with
       | none => config.scoring.fallbacks.weatherPenalty
       | some v => lookupBandPenalty v config.scoring.weatherPenalty.rainBands) ∧
    (computeWeatherPenalty weather config).windPenalty =
      (match listMax (weather.wind_speed_10m.take 6) with
       | none => config.scoring.fallbacks.weatherPenalty
       | some v => lookupBandPenalty v config.scoring.weatherPenalty.windBands) ∧
    (computeWeatherPenalty weather config).tempPenalty =
      (match (weather.temperature_2m.take 6).head? with
       | none => config.scoring.fallbacks.weatherPenalty
       | some t =>
         if config.scoring.weatherPenalty.tempComfort.idealMin ≤ t ∧
             t ≤ config.scoring.weatherPenalty.tempComfort.idealMax then 0
         else if config.scoring.weatherPenalty.tempComfort.shoulderMin ≤ t ∧
             t ≤ config.scoring.weatherPenalty.tempComfort.shoulderMax then
           config.scoring.weatherPenalty.tempComfort.shoulderPenalty
         else config.scoring.weatherPenalty.tempComfort.extremePenalty) ∧
    (computeWeatherPenalty weather config).penalty =
      round2 ((computeWeatherPenalty weather config).rainPenalty +
        (computeWeatherPenalty weather config).tempPenalty +
        (computeWeatherPenalty weather config).windPenalty) ∧
    (computeWeatherPenalty scenarioWeatherSlice defaultConfig).rainPenalty = 30 ∧
    (computeWeatherPenalty scenarioWeatherSlice defaultConfig).tempPenalty = 16 ∧
    (computeWeatherPenalty scenarioWeatherSlice defaultConfig).windPenalty = 10 ∧
    (computeWeatherPenalty scenarioWeatherSlice defaultConfig).penalty = 56 := by
  refine ⟨rfl, rfl, rfl, rfl, ?_, ?_, ?_, ?_⟩ <;>
    norm_num [computeWeatherPenalty, sliceNext6, listMax, lookupBandPenalty,
      scenarioWeatherSlice, defaultConfig, round2, List.find?]

/-! ### Claim C9 — air-quality summary -/

instance : IsTotal (ℚ × Option String) (fun a b => b.1 ≤ a.1) :=
  ⟨fun a b => le_total b.1 a.1⟩

instance : IsTrans (ℚ × Option String) (fun a b => b.1 ≤ a.1) :=
  ⟨fun _ _ _ h1 h2 => le_trans h2 h1⟩

theorem candidateHits_range (fields : List (String × Json)) (station : Option String) :
    ∀ p ∈ candidateHits fields station, p.1.den = 1 ∧ 1 ≤ p.1 ∧ p.1 ≤ 10 := by
  intro p hp
  simp only [candidateHits, List.mem_filterMap] at hp
  obtain ⟨key, _, hmatch⟩ := hp
  split at hmatch
  all_goals
    first
      | (split_ifs at hmatch with hcond <;>
          first
            | (cases hmatch
               exact hcond)
            | exact absurd hmatch (by simp))
      | exact absurd hmatch (by simp)

mutual

theorem collectAQI_range : ∀ (j : Json) (station : Option String) (p : ℚ × Option String),
    p ∈ collectAQI j station → p.1.den = 1 ∧ 1 ≤ p.1 ∧ p.1 ≤ 10
  | Json.null, _, _ => fun hp => absurd hp (by simp [collectAQI])
  | Json.bool b, _, _ => fun hp => absurd hp (by simp [collectAQI])
  | Json.num q, _, _ => fun hp => absurd hp (by simp [collectAQI])
  | Json.str s, _, _ => fun hp => absurd hp (by simp [collectAQI])
  | Json.arr items, station, p => fun hp =>
    collectAQIList_range items station p (by simpa [collectAQI] using hp)
  | Json.obj fields, station, p => fun hp => by
    rcases List.mem_append.mp (by simpa [collectAQI] using hp) with h | h
    · exact candidateHits_range fields _ p h
    · exact collectAQIFields_range fields _ p h
termination_by j _ _ => sizeOf j
decreasing_by
  all_goals (simp <;> omega)

theorem collectAQIList_range : ∀ (l : List Json) (station : Option String)
    (p : ℚ × Option String),
    p ∈ collectAQIList l station → p.1.den = 1 ∧ 1 ≤ p.1 ∧ p.1 ≤ 10
  | [], _, _ => fun hp => absurd hp (by simp [collectAQIList])
  | item :: rest, station, p => fun hp => by
    rcases List.mem_append.mp (by simpa [collectAQIList] using hp) with h | h
    · exact collectAQI_range item station p h
    · exact collectAQIList_range rest station p h
termination_by l _ _ => sizeOf l
decreasing_by
  all_goals (simp <;> omega)

theorem collectAQIFields_range : ∀ (l : List (String × Json)) (station : Option String)
    (p : ℚ × Option String),
    p ∈ collectAQIFields l station → p.1.den = 1 ∧ 1 ≤ p.1 ∧ p.1 ≤ 10
  | [], _, _ => fun hp => absurd hp (by simp [collectAQIFields])
  | field :: rest, station, p => fun hp => by
    rcases List.mem_append.mp (by simpa [collectAQIFields] using hp) with h | h
    · exact collectAQI_range field.2 station p h
    · exact collectAQIFields_range rest station p h
termination_by l _ _ => sizeOf l
decreasing_by
  all_goals (first
    | (obtain ⟨a, b⟩ := field; simp <;> omega)
    | (simp <;> omega))

end

theorem collectAQI_str (s : String) (station : Option String) :
    collectAQI (Json.str s) station = [] := by
  rw [collectAQI.eq_def]

theorem collectAQI_num (q : ℚ) (station : Option String) :
    collectAQI (Json.num q) station = [] := by
  rw [collectAQI.eq_def]

/-- Claim C9: every collected AQI reading is an integer in `1..10`; when no
reading exists the summary is absent index/band with the configured air
fallback; otherwise the summary's index is a maximum reading (with its
nearest enclosing station name) and penalty/band come from the first air
band row whose ceiling is ≥ the index, the last row acting as catch-all; a
single observed index `6` gives band `"Moderate"` and penalty `10` under the
default table. -/
theorem summarizeErgAirQuality_spec (raw : Json) (config : LiveabilityConfig) :
    (∀ p ∈ collectAQI raw none, p.1.den = 1 ∧ 1 ≤ p.1 ∧ p.1 ≤ 10) ∧
    (collectAQI raw none = [] →
      summarizeErgAirQuality raw config =
        { maxIndex := none, band := none, penalty := config.scoring.fallbacks.airPenalty,
          stationName := none }) ∧
    (collectAQI raw none ≠ [] →
      ∃ m station, (summarizeErgAirQuality raw config).maxIndex = some m ∧
        (m, station) ∈ collectAQI raw none ∧
        (∀ p ∈ collectAQI raw none, p.1 ≤ m) ∧
        (summarizeErgAirQuality raw config).stationName = station ∧
        (summarizeErgAirQuality raw config).penalty =
          (match config.scoring.airPenalty.find? (fun row => m ≤ row.maxIndex) with
           | some row => row.penalty
           | none =>
             match config.scoring.airPenalty.getLast? with
             | some row => row.penalty
             | none => config.scoring.fallbacks.airPenalty) ∧
        (summarizeErgAirQuality raw config).band =
          (match config.scoring.airPenalty.find? (fun row => m ≤ row.maxIndex) with
           | some row => some row.band
           | none =>
             match config.scoring.airPenalty.getLast? with
             | some row => some row.band
             | none => none)) ∧
    summarizeErgAirQuality (Json.obj [("@SiteName", Json.str "Camden"), ("@AQI", Json.num 6)])
      defaultConfig =
      { maxIndex := some 6, band := some "Moderate", penalty := 10,
        stationName := some "Camden" } := by
  refine ⟨fun p hp => collectAQI_range raw none p hp, ?_, ?_, ?_⟩
  · intro h
    simp [summarizeErgAirQuality, h]
  · intro hne
    have hperm := List.perm_insertionSort (fun a b : ℚ × Option String => b.1 ≤ a.1)
      (collectAQI raw none)
    have hsorted := List.sorted_insertionSort (fun a b : ℚ × Option String => b.1 ≤ a.1)
      (collectAQI raw none)
    cases hsort : (collectAQI raw none).insertionSort (fun a b => b.1 ≤ a.1) with
    | nil =>
      rw [hsort] at hperm
      exact absurd (hperm.symm.eq_nil) hne
    | cons maxHit tail =>
      rw [hsort] at hperm hsorted
      have hsum : summarizeErgAirQuality raw config =
          (let bandRow : Option AirBandRow :=
            match config.scoring.airPenalty.find? (fun row => maxHit.1 ≤ row.maxIndex) with
            | some row => some row
            | none => config.scoring.airPenalty.getLast?
          { maxIndex := some maxHit.1
            band := bandRow.map (fun row => row.band)
            penalty :=
              match bandRow with
              | some row => row.penalty
              | none => config.scoring.fallbacks.airPenalty
            stationName := maxHit.2 }) := by
        rw [summarizeErgAirQuality, hsort]
        rfl
      refine ⟨maxHit.1, maxHit.2, by rw [hsum], ?_, ?_, by rw [hsum], ?_, ?_⟩
      · exact hperm.mem_iff.mp (List.mem_cons_self _ _)
      · intro p hp
        rcases List.mem_cons.mp (hperm.mem_iff.mpr hp) with h | h
        · rw [h]
        · exact List.rel_of_sorted_cons hsorted p h
      · rw [hsum]
        cases hfind : config.scoring.airPenalty.find?
            (fun row => decide (maxHit.1 ≤ row.maxIndex)) with
        | some row => rfl
        | none =>
          cases hlast : config.scoring.airPenalty.getLast? with
          | some row => rfl
          | none => rfl
      · rw [hsum]
        cases hfind : config.scoring.airPenalty.find?
            (fun row => decide (maxHit.1 ≤ row.maxIndex)) with
        | some row => rfl
        | none =>
          cases hlast : config.scoring.airPenalty.getLast? with
          | some row => rfl
          | none => rfl
  · have hfound : collectAQI
        (Json.obj [("@SiteName", Json.str "Camden"), ("@AQI", Json.num 6)]) none =
        [(6, some "Camden")] := by
      rw [collectAQI.eq_def]
      simp only [collectAQIFields, collectAQI_str, collectAQI_num]
      rfl
    rw [summarizeErgAirQuality, hfound]
    rfl

/-! ### Claims C4 / C10 — URL redaction -/

theorem find?_congr_param {p q : (String × String) → Bool}
    (hpq : ∀ x, p x = q x) :
    ∀ l : List (String × String), l.find? p = l.find? q
  | [] => rfl
  | a :: l => by
    rw [List.find?_cons, List.find?_cons, hpq a, find?_congr_param hpq l]

theorem filter_filter_ne (k : String) (pred : String × String → Bool)
    (hpred : ∀ w, pred (k, w) = false)
    (ps : List (String × String)) :
    (ps.filter (fun x => x.1 ≠ k)).filter pred = ps.filter pred := by
  rw [List.filter_filter]
  refine List.filter_congr (fun a _ => ?_)
  by_cases h : a.1 = k
  · obtain ⟨a1, a2⟩ := a
    simp only at h
    subst h
    simp [hpred a2]
  · simp [h]

theorem filter_setParam_ne (k v : String) (pred : String × String → Bool)
    (hpred : ∀ w, pred (k, w) = false) :
    ∀ q : List (String × String), (setParam q k v).filter pred = q.filter pred
  | [] => by simp [setParam, List.filter_cons, hpred v]
  | p :: ps => by
    by_cases h : p.1 = k
    · have hp : pred p = false := by
        obtain ⟨p1, p2⟩ := p
        simp only at h
        subst h
        exact hpred p2
      rw [setParam, if_pos h, List.filter_cons, List.filter_cons, hp,
        filter_filter_ne k pred hpred ps, hpred v]
      simp only [Bool.false_eq_true, if_false]
    · rw [setParam, if_neg h, List.filter_cons, List.filter_cons,
        filter_setParam_ne k v pred hpred ps]

theorem getParam_setParam_self : ∀ (q : List (String × String)) (k v : String),
    getParam (setParam q k v) k = some v
  | [], k, v => by simp [setParam, getParam, List.find?_cons]
  | p :: ps, k, v => by
    by_cases h : p.1 = k
    · simp [setParam, h, getParam, List.find?_cons]
    · have ih := getParam_setParam_self ps k v
      rw [setParam, if_neg h, getParam, List.find?_cons]
      rw [getParam] at ih
      simp only [decide_eq_false h]
      exact ih

theorem getParam_eq_none (q : List (String × String)) (k : String)
    (h : hasParam q k = false) : getParam q k = none := by
  have h' : ∀ p ∈ q, ¬ (p.1 = k) := by simpa [hasParam] using h
  have hfind : q.find? (fun p => p.1 = k) = none :=
    List.find?_eq_none.mpr (fun x hx => by simpa using h' x hx)
  rw [getParam, hfind]
  rfl

theorem find?_filter_ne (k s : String) (hks : s ≠ k)
    (ps : List (String × String)) :
    (ps.filter (fun x => x.1 ≠ k)).find? (fun p => p.1 = s) =
      ps.find? (fun p => p.1 = s) := by
  rw [List.find?_filter]
  refine find?_congr_param (fun a => ?_) ps
  by_cases h : a.1 = s
  · have hak : ¬ (a.1 = k) := fun hk => hks (by rw [← h, hk])
    simp [h, hak, hks]
  · simp [h]

theorem getParam_setParam_ne (k v s : String) (hks : s ≠ k) :
    ∀ q : List (String × String), getParam (setParam q k v) s = getParam q s
  | [] => by
    have hknots : ¬ ((k : String) = s) := fun hh => hks hh.symm
    simp [setParam, getParam, List.find?_cons, hknots]
  | p :: ps => by
    by_cases h : p.1 = k
    · have hknots : ¬ ((k : String) = s) := fun hh => hks hh.symm
      have hps : ¬ (p.1 = s) := by rw [h]; exact hknots
      rw [setParam, if_pos h, getParam, getParam, List.find?_cons, List.find?_cons]
      simp only [decide_eq_false hknots, decide_eq_false hps]
      rw [find?_filter_ne k s hks ps]
    · by_cases hs : p.1 = s
      · rw [setParam, if_neg h, getParam, getParam, List.find?_cons, List.find?_cons]
        simp only [decide_eq_true hs]
      · have ih := getParam_setParam_ne k v s hks ps
        rw [setParam, if_neg h, getParam, getParam, List.find?_cons, List.find?_cons]
        rw [getParam, getParam] at ih
        simp only [decide_eq_false hs]
        exact ih

theorem hasParam_eq_isSome : ∀ (q : List (String × String)) (s : String),
    hasParam q s = (getParam q s).isSome
  | [], _ => rfl
  | p :: ps, s => by
    by_cases h : p.1 = s
    · simp [hasParam, getParam, List.find?_cons, List.any_cons, h]
    · have ih := hasParam_eq_isSome ps s
      rw [hasParam, List.any_cons, getParam, List.find?_cons]
      rw [hasParam, getParam] at ih
      simp only [decide_eq_false h, Bool.false_or]
      exact ih

theorem hasParam_setParam_ne (k v s : String) (hks : s ≠ k)
    (q : List (String × String)) : hasParam (setParam q k v) s = hasParam q s := by
  rw [hasParam_eq_isSome, hasParam_eq_isSome, getParam_setParam_ne k v s hks q]

theorem getParam_redactParam_ne (k s : String) (hks : s ≠ k)
    (q : List (String × String)) : getParam (redactParam q k) s = getParam q s := by
  by_cases h : hasParam q k
  · simp [redactParam, h, getParam_setParam_ne k _ s hks q]
  · simp [redactParam, h]

theorem hasParam_redactParam_ne (k s : String) (hks : s ≠ k)
    (q : List (String × String)) : hasParam (redactParam q k) s = hasParam q s := by
  by_cases h : hasParam q k
  · simp [redactParam, h, hasParam_setParam_ne k _ s hks q]
  · simp [redactParam, h]

theorem filter_redactParam_ne (k : String) (pred : String × String → Bool)
    (hpred : ∀ w, pred (k, w) = false) (q : List (String × String)) :
    (redactParam q k).filter pred = q.filter pred := by
  by_cases h : hasParam q k
  · simp [redactParam, h, filter_setParam_ne k _ pred hpred q]
  · simp [redactParam, h]

theorem getParam_redactParam_self (q : List (String × String)) (k : String) :
    getParam (redactParam q k) k =
      (if hasParam q k then some "REDACTED" else none) := by
  by_cases h : hasParam q k
  · simp [redactParam, h, getParam_setParam_self q k]
  · simp only [Bool.not_eq_true] at h
    simp [redactParam, h, getParam_eq_none q k h]

theorem filter_ne_then_eq (k : String) :
    ∀ ps : List (String × String),
      (ps.filter (fun x => x.1 ≠ k)).filter (fun p => p.1 = k) = []
  | [] => rfl
  | p :: ps => by
    by_cases h : p.1 = k
    · simp [List.filter_cons, h, filter_ne_then_eq k ps]
    · simp [List.filter_cons, h, filter_ne_then_eq k ps]

theorem filter_key_setParam : ∀ (q : List (String × String)) (k v : String),
    hasParam q k = true → (setParam q k v).filter (fun p => p.1 = k) = [(k, v)]
  | [], k, v => by simp [hasParam]
  | p :: ps, k, v => fun hhas => by
    by_cases h : p.1 = k
    · simp [setParam, h, List.filter_cons, filter_ne_then_eq k ps]
    · have hps : hasParam ps k = true := by
        simpa [hasParam, List.any_cons, h] using hhas
      simp [setParam, h, List.filter_cons, filter_key_setParam ps k v hps]

theorem setParam_self : ∀ (q : List (String × String)) (k v : String),
    q.filter (fun p => p.1 = k) = [(k, v)] → setParam q k v = q
  | [], k, v => fun h => absurd h (by simp)
  | p :: ps, k, v => fun hfilter => by
    by_cases h : p.1 = k
    · rw [List.filter_cons_of_pos (by simpa using h)] at hfilter
      have hp : p = (k, v) := (List.cons_eq_cons.mp hfilter).1
      have hrest : ps.filter (fun p => p.1 = k) = [] := (List.cons_eq_cons.mp hfilter).2
      have hnone : ∀ x ∈ ps, ¬ (x.1 = k) := by
        intro x hx
        intro hxk
        have : x ∈ ps.filter (fun p => p.1 = k) := List.mem_filter.mpr ⟨hx, by simpa using hxk⟩
        rw [hrest] at this
        exact absurd this (List.not_mem_nil x)
      have hkeep : ps.filter (fun x => x.1 ≠ k) = ps :=
        List.filter_eq_self.mpr (fun x hx => by simpa using hnone x hx)
      rw [setParam, if_pos h, hkeep, hp]
    · rw [List.filter_cons_of_neg (by simpa using h)] at hfilter
      rw [setParam, if_neg h, setParam_self ps k v hfilter]

theorem redactParam_eq_self (q : List (String × String)) (k : String)
    (h : q.filter (fun p => p.1 = k) = [(k, "REDACTED")] ∨ hasParam q k = false) :
    redactParam q k = q := by
  rcases h with h | h
  · by_cases hh : hasParam q k
    · simp [redactParam, hh, setParam_self q k _ h]
    · simp [redactParam, hh]
  · simp [redactParam, h]

theorem redactParam_establishes (q : List (String × String)) (k : String) :
    (redactParam q k).filter (fun p => p.1 = k) = [(k, "REDACTED")] ∨
      hasParam (redactParam q k) k = false := by
  by_cases h : hasParam q k
  · exact Or.inl (by simp [redactParam, h, filter_key_setParam q k _ h])
  · simp only [Bool.not_eq_true] at h
    exact Or.inr (by simp [redactParam, h])

theorem redactParam_preserves (q : List (String × String)) (k k2 : String) (hk : k ≠ k2)
    (h : q.filter (fun p => p.1 = k) = [(k, "REDACTED")] ∨ hasParam q k = false) :
    (redactParam q k2).filter (fun p => p.1 = k) = [(k, "REDACTED")] ∨
      hasParam (redactParam q k2) k = false := by
  rcases h with h | h
  · exact Or.inl (by
      rw [filter_redactParam_ne k2 (fun p => p.1 = k) (fun w => by simpa using hk.symm) q, h])
  · exact Or.inr (by rw [hasParam_redactParam_ne k2 k hk q, h])

/-- Claim C10: the searchParams redaction pass of `sanitizeUrlForLineage` is
idempotent — applying it to an already-sanitized URL changes nothing, so the
serialized sanitized URL is a fixed point. -/
theorem sanitizeUrl_idempotent (u : UrlModel) :
    sanitizeUrl (sanitizeUrl u) = sanitizeUrl u ∧
    sanitizeUrlForLineage { base := u.base, query := (sanitizeUrl u).query } =
      sanitizeUrlForLineage u := by
  have hq : ∀ q : List (String × String),
      redactKeys.foldl redactParam (redactKeys.foldl redactParam q) =
        redactKeys.foldl redactParam q := by
    intro q
    simp only [redactKeys, List.foldl_cons, List.foldl_nil]
    generalize hGen : redactParam (redactParam (redactParam (redactParam q "app_key")
      "api_key") "key") "token" = Q
    have hQdef : Q = redactParam (redactParam (redactParam (redactParam q "app_key")
        "api_key") "key") "token" := hGen.symm
    have hPapp : Q.filter (fun p => p.1 = "app_key") = [("app_key", "REDACTED")] ∨
        hasParam Q "app_key" = false := by
      rw [hQdef]
      refine redactParam_preserves _ _ _ (by decide) ?_
      refine redactParam_preserves _ _ _ (by decide) ?_
      refine redactParam_preserves _ _ _ (by decide) ?_
      exact redactParam_establishes q "app_key"
    have hPapi : Q.filter (fun p => p.1 = "api_key") = [("api_key", "REDACTED")] ∨
        hasParam Q "api_key" = false := by
      rw [hQdef]
      refine redactParam_preserves _ _ _ (by decide) ?_
      refine redactParam_preserves _ _ _ (by decide) ?_
      exact redactParam_establishes _ "api_key"
    have hPkey : Q.filter (fun p => p.1 = "key") = [("key", "REDACTED")] ∨
        hasParam Q "key" = false := by
      rw [hQdef]
      refine redactParam_preserves _ _ _ (by decide) ?_
      exact redactParam_establishes _ "key"
    have hPtok : Q.filter (fun p => p.1 = "token") = [("token", "REDACTED")] ∨
        hasParam Q "token" = false := by
      rw [hQdef]
      exact redactParam_establishes _ "token"
    rw [redactParam_eq_self Q "app_key" hPapp, redactParam_eq_self Q "api_key" hPapi,
      redactParam_eq_self Q "key" hPkey, redactParam_eq_self Q "token" hPtok]
  obtain ⟨b, q⟩ := u
  refine ⟨?_, ?_⟩
  · exact congrArg (UrlModel.mk b) (hq q)
  · exact congrArg (fun l => renderUrl (UrlModel.mk b l)) (hq q)

set_option maxRecDepth 8192 in
/-- Claim C4: redaction replaces the value of each of `app_key`, `api_key`,
`key` and `token` with the literal `"REDACTED"` when present, leaves every
pair with any other key untouched, and the stored trace carries exactly the
sanitized URL; the concrete query
`app_key=abc123&foo=bar&token=secret` sanitizes to
`app_key=REDACTED`, `foo=bar`, `token=REDACTED`, and the serialized result
contains neither `abc123` nor `secret`. -/
theorem sanitize_redacts_and_preserves (u : UrlModel) :
    getParam (sanitizeUrl u).query "app_key" =
      (if hasParam u.query "app_key" then some "REDACTED" else none) ∧
    getParam (sanitizeUrl u).query "api_key" =
      (if hasParam u.query "api_key" then some "REDACTED" else none) ∧
    getParam (sanitizeUrl u).query "key" =
      (if hasParam u.query "key" then some "REDACTED" else none) ∧
    getParam (sanitizeUrl u).query "token" =
      (if hasParam u.query "token" then some "REDACTED" else none) ∧
    (sanitizeUrl u).query.filter (fun p => ¬ p.1 ∈ redactKeys) =
      u.query.filter (fun p => ¬ p.1 ∈ redactKeys) ∧
    (∀ source note, (trace u source note).url = sanitizeUrlForLineage u) ∧
    sanitizeUrlForLineage
      { base := "https://api.tfl.gov.uk/line/mode/tube/status"
        query := [("app_key", "abc123"), ("foo", "bar"), ("token", "secret")] } =
      "https://api.tfl.gov.uk/line/mode/tube/status?app_key=REDACTED&foo=bar&token=REDACTED" ∧
    ¬ ("abc123".data <:+: (sanitizeUrlForLineage
      { base := "https://api.tfl.gov.uk/line/mode/tube/status"
        query := [("app_key", "abc123"), ("foo", "bar"), ("token", "secret")] }).data) ∧
    ¬ ("secret".data <:+: (sanitizeUrlForLineage
      { base := "https://api.tfl.gov.uk/line/mode/tube/status"
        query := [("app_key", "abc123"), ("foo", "bar"), ("token", "secret")] }).data) ∧
    ("foo=bar".data <:+: (sanitizeUrlForLineage
      { base := "https://api.tfl.gov.uk/line/mode/tube/status"
        query := [("app_key", "abc123"), ("foo", "bar"), ("token", "secret")] }).data) := by
  have hunfold : (sanitizeUrl u).query = redactParam (redactParam (redactParam (redactParam
      u.query "app_key") "api_key") "key") "token" := rfl
  refine ⟨?_, ?_, ?_, ?_, ?_, fun _ _ => rfl, by decide, by decide, by decide, by decide⟩
  · rw [hunfold,
      getParam_redactParam_ne "token" "app_key" (by decide) _,
      getParam_redactParam_ne "key" "app_key" (by decide) _,
      getParam_redactParam_ne "api_key" "app_key" (by decide) _,
      getParam_redactParam_self _ "app_key"]
  · rw [hunfold,
      getParam_redactParam_ne "token" "api_key" (by decide) _,
      getParam_redactParam_ne "key" "api_key" (by decide) _,
      getParam_redactParam_self _ "api_key",
      hasParam_redactParam_ne "app_key" "api_key" (by decide) _]
  · rw [hunfold,
      getParam_redactParam_ne "token" "key" (by decide) _,
      getParam_redactParam_self _ "key",
      hasParam_redactParam_ne "api_key" "key" (by decide) _,
      hasParam_redactParam_ne "app_key" "key" (by decide) _]
  · rw [hunfold,
      getParam_redactParam_self _ "token",
      hasParam_redactParam_ne "key" "token" (by decide) _,
      hasParam_redactParam_ne "api_key" "token" (by decide) _,
      hasParam_redactParam_ne "app_key" "token" (by decide) _]
  · rw [hunfold,
      filter_redactParam_ne "token" _ (fun w => by simp [redactKeys]) _,
      filter_redactParam_ne "key" _ (fun w => by simp [redactKeys]) _,
      filter_redactParam_ne "api_key" _ (fun w => by simp [redactKeys]) _,
      filter_redactParam_ne "app_key" _ (fun w => by simp [redactKeys]) _]

/-! ### Claim C3 — error / disabled fallback routing -/

theorem collectAQI_null (station : Option String) : collectAQI Json.null station = [] := by
  rw [collectAQI.eq_def]

theorem summarize_null (config : LiveabilityConfig) :
    summarizeErgAirQuality Json.null config =
      { maxIndex := none, band := none, penalty := config.scoring.fallbacks.airPenalty,
        stationName := none } := by
  rw [summarizeErgAirQuality, collectAQI_null]
  rfl

/-- Claim C3 counterexample: with the default config and a failed Open-Meteo
fetch, the openMeteo status is `error` but the weather metric penalty is the
sum of the three per-component weather fallbacks (`30`), not the configured
weather fallback (`10`) — refuting "every dependent metric penalty equals
the configured fallback" for errored sources. -/
theorem weather_error_penalty_not_fallback :
    (collectOnce defaultConfig ⟨some ([], []), none, some Json.null⟩).sourceStatuses.openMeteo =
      SourceStatus.error ∧
    (collectOnce defaultConfig ⟨some ([], []), none, some Json.null⟩).weatherSummary.penalty ≠
      defaultConfig.scoring.fallbacks.weatherPenalty := by
  constructor
  · rfl
  · have hs : (collectOnce defaultConfig ⟨some ([], []), none, some Json.null⟩).weatherSummary =
        computeWeatherPenalty emptyWeatherSlice defaultConfig := rfl
    rw [hs]
    norm_num [computeWeatherPenalty, emptyWeatherSlice, sliceNext6, listMax,
      defaultConfig, round2]

/-- Claim C3 (amended): for a disabled or errored TfL source the transit and
wait penalties are exactly their configured fallbacks; for a disabled or
errored ERG source the air penalty is exactly its configured fallback; for a
disabled Open-Meteo source the weather penalty is exactly its configured
fallback, while for an errored Open-Meteo source every weather *component*
falls back individually and the metric penalty is the two-decimal rounding
of three times the weather fallback; in all these cases the metric's lineage
record has `fallbackUsed = true`. -/
theorem error_disabled_route_fallback (config : LiveabilityConfig) (inputs : CollectInputs) :
    ((collectOnce config inputs).sourceStatuses.tfl = SourceStatus.error ∨
        (collectOnce config inputs).sourceStatuses.tfl = SourceStatus.disabled →
      (collectOnce config inputs).transitPenalty = config.scoring.fallbacks.transitPenalty ∧
      (collectOnce config inputs).waitPenalty = config.scoring.fallbacks.waitPenalty ∧
      (collectOnce config inputs).lineageFallbackUsed.transit = true ∧
      (collectOnce config inputs).lineageFallbackUsed.wait = true) ∧
    ((collectOnce config inputs).sourceStatuses.ergAirQuality = SourceStatus.error ∨
        (collectOnce config inputs).sourceStatuses.ergAirQuality = SourceStatus.disabled →
      (collectOnce config inputs).finalAir.penalty = config.scoring.fallbacks.airPenalty ∧
      (collectOnce config inputs).lineageFallbackUsed.air = true) ∧
    ((collectOnce config inputs).sourceStatuses.openMeteo = SourceStatus.disabled →
      (collectOnce config inputs).weatherSummary.penalty =
        config.scoring.fallbacks.weatherPenalty ∧
      (collectOnce config inputs).lineageFallbackUsed.weather = true) ∧
    ((collectOnce config inputs).sourceStatuses.openMeteo = SourceStatus.error →
      (collectOnce config inputs).weatherSummary.penalty =
        round2 (config.scoring.fallbacks.weatherPenalty +
          config.scoring.fallbacks.weatherPenalty +
          config.scoring.fallbacks.weatherPenalty) ∧
      (collectOnce config inputs).lineageFallbackUsed.weather = true) := by
  refine ⟨?_, ?_, ?_, ?_⟩
  · intro h
    cases hten : config.sources.tflEnabled with
    | false =>
      simp [collectOnce, transitPenaltyOf, waitPenaltyOf, tflStatusOf, tflStatusLinesOf,
        tflArrivalsOf, lineageFallbackUsedOf, hten]
    | true =>
      cases htd : inputs.tflData with
      | none =>
        simp [collectOnce, transitPenaltyOf, waitPenaltyOf, tflStatusOf, tflStatusLinesOf,
          tflArrivalsOf, lineageFallbackUsedOf, hten, htd, computeTransitPenalty,
          computeWaitPenalty, averagePenalty]
      | some d =>
        rcases h with h | h <;> simp [collectOnce, tflStatusOf, hten, htd] at h
  · intro h
    cases herg : config.sources.ergEnabled with
    | false => simp [collectOnce, finalAirOf, ergStatusOf, lineageFallbackUsedOf, herg]
    | true =>
      cases had : inputs.airData with
      | none =>
        simp [collectOnce, finalAirOf, airSummaryOf, ergStatusOf, lineageFallbackUsedOf,
          herg, had, summarize_null, computeAirPenalty]
      | some j =>
        rcases h with h | h <;> simp [collectOnce, ergStatusOf, herg, had] at h
  · intro h
    cases hom : config.sources.openMeteoEnabled with
    | false =>
      simp [collectOnce, weatherSummaryOf, openMeteoStatusOf, weatherRawOf,
        lineageFallbackUsedOf, hom]
    | true =>
      cases hwd : inputs.weatherData with
      | none => simp [collectOnce, openMeteoStatusOf, hom, hwd] at h
      | some w => simp [collectOnce, openMeteoStatusOf, hom, hwd] at h
  · intro h
    cases hom : config.sources.openMeteoEnabled with
    | false => simp [collectOnce, openMeteoStatusOf, hom] at h
    | true =>
      cases hwd : inputs.weatherData with
      | none =>
        constructor
        · simp [collectOnce, weatherSummaryOf, openMeteoStatusOf, weatherRawOf, hom, hwd,
            computeWeatherPenalty, emptyWeatherSlice, sliceNext6, listMax]
        · simp [collectOnce, lineageFallbackUsedOf, openMeteoStatusOf, hom, hwd]
      | some w => simp [collectOnce, openMeteoStatusOf, hom, hwd] at h

/-- Witness for claim C3 with every source enabled and every fetch failed. -/
theorem error_disabled_route_fallback_witness :
    (collectOnce defaultConfig ⟨none, none, none⟩).transitPenalty =
      defaultConfig.scoring.fallbacks.transitPenalty ∧
    (collectOnce defaultConfig ⟨none, none, none⟩).weatherSummary.penalty =
      round2 (defaultConfig.scoring.fallbacks.weatherPenalty +
        defaultConfig.scoring.fallbacks.weatherPenalty +
        defaultConfig.scoring.fallbacks.weatherPenalty) := by
  have h := error_disabled_route_fallback defaultConfig ⟨none, none, none⟩
  exact ⟨(h.1 (Or.inl rfl)).1, (h.2.2.2 rfl).1⟩

/-! ### Remaining claim witnesses -/

/-- Witness for claim C7 at the §8 arrivals scenario. -/
theorem normalizeTflArrivals_spec_witness :
    (normalizeTflArrivals [some 120, some 360, some 600, some 1800] "940GZZLUKSX" "Stop"
      defaultConfig).penalty = lookupBandPenalty 6 defaultConfig.scoring.waitPenaltyBands := by
  have h := normalizeTflArrivals_spec [some 120, some 360, some 600, some 1800]
    "940GZZLUKSX" "Stop" defaultConfig
  exact h.2.2.2.2.2.1 6 (by rw [h.2.2.2.2.2.2.2.2])

/-- Witness for claim C9 on the empty payload. -/
theorem summarizeErgAirQuality_spec_witness :
    summarizeErgAirQuality Json.null defaultConfig =
      { maxIndex := none, band := none,
        penalty := defaultConfig.scoring.fallbacks.airPenalty, stationName := none } := by
  have h := summarizeErgAirQuality_spec Json.null defaultConfig
  exact h.2.1 (collectAQI_null none)

/-- Witness for claim C4 on a single-parameter query. -/
theorem sanitize_redacts_and_preserves_witness :
    getParam (sanitizeUrl
      { base := "https://example.org/a"
        query := [("app_key", "abc123")] }).query "app_key" = some "REDACTED" := by
  have h := sanitize_redacts_and_preserves
    { base := "https://example.org/a", query := [("app_key", "abc123")] }
  simpa using h.1

end Liveability
